import Mathlib

/-!
Verification of the `sshproxy` reverse-proxy forwarding engine.

The Go source (package `sshproxy`) is shallowly embedded: each function is
translated into a pure Lean function over an explicit environment that
supplies the outcomes of the external SSH-library calls (send, reply,
open-channel, accept, copy, connection wait, context cancellation), and each
function additionally returns the trace of externally visible calls it makes,
so that invariants such as "reply is invoked exactly once" can be stated.
-/

namespace SSHProxy

/-- An SSH request as seen by `handleRequest`: `Type`, `WantReply`, `Payload`
fields of Go's `*ssh.Request`. Bytes are modelled as `Nat`. -/
structure Request where
  type : String
  wantReply : Bool
  payload : List Nat
deriving DecidableEq

/-- Outcome of `dest.SendRequest(...)` in the environment: the `(ok, payload, err)`
triple the destination returns. A `some` error models a non-nil Go error,
carrying its `Error()` string. -/
structure SendResult where
  ok : Bool
  payload : List Nat
  err : Option String
deriving DecidableEq

/-- Externally visible calls made by `handleRequest`: the upstream
`SendRequest` and the originator-facing `Reply`. -/
inductive ReqEvent where
  | send (name : String) (wantReply : Bool) (payload : List Nat)
  | reply (ok : Bool) (payload : List Nat)
deriving DecidableEq

/-- Embedding of `handleRequest` (ssh_test.go sshproxy part, `handleRequest`):
sends the request downstream; if `WantReply`, replies with the `(ok, payload)`
pair received from the send, on both the error and the success path. The
environment supplies the send outcome `sendRes` and, should `Reply` be invoked,
its error `replyErr`. Returns the Go error (`none` = nil) and the call trace. -/
def handleRequest (req : Request) (sendRes : SendResult) (replyErr : Option String) :
    Option String × List ReqEvent :=
  let sendEv := ReqEvent.send req.type req.wantReply req.payload
  match sendRes.err with
  | some e =>
    if req.wantReply then
      match replyErr with
      | some re => (some ("reply after send failure: " ++ re),
          [sendEv, ReqEvent.reply sendRes.ok sendRes.payload])
      | none => (some ("send request: " ++ e),
          [sendEv, ReqEvent.reply sendRes.ok sendRes.payload])
    else
      (some ("send request: " ++ e), [sendEv])
  | none =>
    if req.wantReply then
      match replyErr with
      | some re => (some ("reply: " ++ re),
          [sendEv, ReqEvent.reply sendRes.ok sendRes.payload])
      | none => (none, [sendEv, ReqEvent.reply sendRes.ok sendRes.payload])
    else
      (none, [sendEv])

/-- Number of `Reply` invocations in a `handleRequest` trace. -/
def replyCount (evs : List ReqEvent) : Nat :=
  (evs.filter (fun e => match e with | ReqEvent.reply _ _ => true | _ => false)).length

/-- C1: the forwarder replies exactly once when `WantReply` and never
otherwise, on every send/reply outcome. -/
theorem c1_reply_exactly_once (req : Request) (sendRes : SendResult)
    (replyErr : Option String) :
    replyCount (handleRequest req sendRes replyErr).2
      = (if req.wantReply then 1 else 0) := by
  cases hw : req.wantReply <;>
    cases hs : sendRes.err <;>
      cases hr : replyErr <;>
        simp [handleRequest, replyCount, hw, hs, hr]

/-- C7 counterexample: with send failure `"send boom"` and reply failure
`"reply boom"`, the error returned by `handleRequest` wraps the reply failure,
not the original send failure as the claim states — the message is
`reply after send failure: reply boom`, not `reply after send failure: send boom`. -/
theorem c7_counterexample :
    (handleRequest ⟨"exec", true, [1, 2]⟩ ⟨false, [], some "send boom"⟩
        (some "reply boom")).1 = some ("reply after send failure: " ++ "reply boom") ∧
    ¬ (handleRequest ⟨"exec", true, [1, 2]⟩ ⟨false, [], some "send boom"⟩
        (some "reply boom")).1 = some ("reply after send failure: " ++ "send boom") := by
  constructor
  · rfl
  · decide

/-- C7 (amended): when the send fails and `WantReply` is set, the forwarder
replies with the `(ok, payload)` values as received from the failed send; if
that reply itself fails, the returned error wraps the reply failure as
`reply after send failure: <reply cause>` (the original send error is
discarded). -/
theorem c7_reply_after_send_failure (req : Request) (sendRes : SendResult)
    (sendE replyE : String)
    (hw : req.wantReply = true) (hs : sendRes.err = some sendE) :
    (handleRequest req sendRes (some replyE)).2
        = [ReqEvent.send req.type req.wantReply req.payload,
           ReqEvent.reply sendRes.ok sendRes.payload] ∧
    (handleRequest req sendRes (some replyE)).1
        = some ("reply after send failure: " ++ replyE) := by
  simp [handleRequest, hw, hs]

/-- Witness for C7 (amended) at a concrete input. -/
theorem c7_reply_after_send_failure_witness :
    (handleRequest ⟨"exec", true, [1, 2]⟩ ⟨false, [], some "send boom"⟩
        (some "reply boom")).2
      = [ReqEvent.send "exec" true [1, 2], ReqEvent.reply false []] ∧
    (handleRequest ⟨"exec", true, [1, 2]⟩ ⟨false, [], some "send boom"⟩
        (some "reply boom")).1
      = some ("reply after send failure: " ++ "reply boom") :=
  c7_reply_after_send_failure ⟨"exec", true, [1, 2]⟩ ⟨false, [], some "send boom"⟩
    "send boom" "reply boom" rfl rfl

/-! ## Channel handler -/

/-- An inbound new-channel notification: the `ChannelType()` string and
`ExtraData()` bytes of Go's `ssh.NewChannel`. -/
structure NewChannel where
  channelType : String
  extraData : List Nat
deriving DecidableEq

/-- Go's `ssh.ConnectionFailed` rejection-reason code. -/
def connectionFailed : Nat := 2

/-- Outcome of `destConn.OpenChannel(...)`: success, a typed
`*ssh.OpenChannelError` carrying `(Reason, Message)`, or any other non-nil
error carrying its `Error()` string. -/
inductive OpenResult where
  | ok
  | openChanErr (reason : Nat) (message : String)
  | otherErr (message : String)
deriving DecidableEq

/-- `Error()` string of a typed `*ssh.OpenChannelError`
(`"ssh: rejected: ..."` in Go); kept abstract up to its two fields. -/
def openChanErrString (reason : Nat) (message : String) : String :=
  "ssh: rejected: reason " ++ toString reason ++ " (" ++ message ++ ")"

/-- Externally visible calls `handleChannel` makes on the destination
connection and on the inbound notification. -/
inductive ChEvent where
  | openChannel (typ : String) (extra : List Nat)
  | reject (reason : Nat) (message : String)
  | accept
deriving DecidableEq

/-- Embedding of `handleChannel` (ssh_test.go sshproxy part, `handleChannel`):
opens the mirror channel on `destConn` with the notification's type and extra
data; on a typed open failure rejects with that same reason and message, on
any other open failure rejects with `ConnectionFailed` and the error string;
on success accepts the notification, runs the bicopy, and finally waits on the
first of {destination-request relay done, context done}. The environment
supplies the open outcome, the `Accept` error, the bicopy result, and which
of the final two events fires first. Returns the Go error and the call trace. -/
def handleChannel (nc : NewChannel) (openRes : OpenResult)
    (acceptErr : Option String) (bicopyRes : Option String)
    (ctxDoneFirst : Bool) (ctxErr : String) :
    Option String × List ChEvent :=
  let openEv := ChEvent.openChannel nc.channelType nc.extraData
  match openRes with
  | OpenResult.openChanErr r m =>
      (some ("open channel: " ++ openChanErrString r m), [openEv, ChEvent.reject r m])
  | OpenResult.otherErr m =>
      (some ("open channel: " ++ m), [openEv, ChEvent.reject connectionFailed m])
  | OpenResult.ok =>
    match acceptErr with
    | some e => (some ("accept new channel: " ++ e), [openEv, ChEvent.accept])
    | none =>
      match bicopyRes with
      | some e => (some ("channel bidirectional copy: " ++ e), [openEv, ChEvent.accept])
      | none =>
        if ctxDoneFirst then (some ctxErr, [openEv, ChEvent.accept])
        else (none, [openEv, ChEvent.accept])

/-- Number of `Reject` invocations in a `handleChannel` trace. -/
def rejectCount (evs : List ChEvent) : Nat :=
  (evs.filter (fun e => match e with | ChEvent.reject _ _ => true | _ => false)).length

/-- Number of `Accept` invocations in a `handleChannel` trace. -/
def acceptCount (evs : List ChEvent) : Nat :=
  (evs.filter (fun e => match e with | ChEvent.accept => true | _ => false)).length

/-- C2: a typed open-channel failure is rejected with exactly the same reason
and message; any other open-channel failure is rejected with
`ConnectionFailed` and the error's string as the message. -/
theorem c2_reject_fidelity (nc : NewChannel) (r : Nat) (m : String)
    (acceptErr bicopyRes : Option String) (ctxDoneFirst : Bool) (ctxErr : String) :
    (handleChannel nc (OpenResult.openChanErr r m) acceptErr bicopyRes
        ctxDoneFirst ctxErr).2
      = [ChEvent.openChannel nc.channelType nc.extraData, ChEvent.reject r m] ∧
    (handleChannel nc (OpenResult.otherErr m) acceptErr bicopyRes
        ctxDoneFirst ctxErr).2
      = [ChEvent.openChannel nc.channelType nc.extraData,
         ChEvent.reject connectionFailed m] :=
  ⟨rfl, rfl⟩

/-- C3: exactly one of {accept, reject} is invoked on every inbound
new-channel notification: reject exactly once when the outbound open fails,
accept exactly once (and reject never) when it succeeds. -/
theorem c3_accept_xor_reject (nc : NewChannel) (openRes : OpenResult)
    (acceptErr bicopyRes : Option String) (ctxDoneFirst : Bool) (ctxErr : String) :
    rejectCount (handleChannel nc openRes acceptErr bicopyRes ctxDoneFirst ctxErr).2
        = (if openRes = OpenResult.ok then 0 else 1) ∧
    acceptCount (handleChannel nc openRes acceptErr bicopyRes ctxDoneFirst ctxErr).2
        = (if openRes = OpenResult.ok then 1 else 0) := by
  cases openRes <;>
    cases acceptErr <;>
      cases bicopyRes <;>
        cases ctxDoneFirst <;>
          simp [handleChannel, rejectCount, acceptCount]

/-- C9: forwarding is opaque — the outbound `OpenChannel` receives exactly the
notification's channel-type string and extra-data bytes, and the downstream
`SendRequest` receives exactly the request's name, `WantReply` flag, and
payload bytes. -/
theorem c9_opaque_forwarding (nc : NewChannel) (openRes : OpenResult)
    (acceptErr bicopyRes : Option String) (ctxDoneFirst : Bool) (ctxErr : String)
    (req : Request) (sendRes : SendResult) (replyErr : Option String) :
    (handleChannel nc openRes acceptErr bicopyRes ctxDoneFirst ctxErr).2.head?
        = some (ChEvent.openChannel nc.channelType nc.extraData) ∧
    (handleRequest req sendRes replyErr).2.head?
        = some (ReqEvent.send req.type req.wantReply req.payload) := by
  constructor
  · cases openRes <;>
      cases acceptErr <;>
        cases bicopyRes <;>
          cases ctxDoneFirst <;>
            simp [handleChannel]
  · cases hs : sendRes.err <;>
      cases hw : req.wantReply <;>
        cases hr : replyErr <;>
          simp [handleRequest, hs, hw, hr]

/-! ## bicopy and copyChannels -/

/-- `copyChannels w r` blocks until both its primary copy goroutine and its
own stderr copy return (`<-copyDone` after the stderr `io.Copy`): in the
timing abstraction its completion instant is the later of the two. -/
def copyChannelsDoneAt (primaryDone stderrDone : Nat) : Nat :=
  max primaryDone stderrDone

/-- Timing environment for `bicopy`: completion instants of the four copier
streams (the α→β copier's primary and stderr copies, likewise β→α), the
instant at which the context is cancelled (`none` = never), and `ctx.Err()`'s
string at that point. -/
structure BicopyEnv where
  alphaPrimaryDone : Nat
  alphaStderrDone : Nat
  betaPrimaryDone : Nat
  betaStderrDone : Nat
  cancelAt : Option Nat
  ctxErr : String
deriving DecidableEq

/-- Embedding of `bicopy` (ssh_test.go sshproxy part, `bicopy`): spawns
`copyChannels alpha beta` (closing `alphaWriteDone` on return) and
`copyChannels beta alpha` (not waited on), then selects on
`{alphaWriteDone, ctx.Done()}`, returning `nil` in the first case and
`ctx.Err()` in the second. Result: `(return instant, returned error)`;
a simultaneous arrival is resolved in favour of `alphaWriteDone`. -/
def bicopy (env : BicopyEnv) : Nat × Option String :=
  let alphaWriteDoneAt := copyChannelsDoneAt env.alphaPrimaryDone env.alphaStderrDone
  match env.cancelAt with
  | none => (alphaWriteDoneAt, none)
  | some c =>
    if alphaWriteDoneAt ≤ c then (alphaWriteDoneAt, none)
    else (c, some env.ctxErr)

/-- C4: `bicopy` returns at the first of the two events — α→β copier
completion or context cancellation — independently of when the β→α direction
finishes; it returns `nil` when the α→β copier wins (context not yet
cancelled) and the context's error when cancellation comes strictly first. -/
theorem c4_bicopy_first_event (env : BicopyEnv) (b1 b2 : Nat) :
    bicopy { env with betaPrimaryDone := b1, betaStderrDone := b2 } = bicopy env ∧
    (bicopy env).1
      = (match env.cancelAt with
         | none => copyChannelsDoneAt env.alphaPrimaryDone env.alphaStderrDone
         | some c => min (copyChannelsDoneAt env.alphaPrimaryDone env.alphaStderrDone) c) ∧
    ((bicopy env).2 = none
      ↔ ∀ c ∈ env.cancelAt,
          copyChannelsDoneAt env.alphaPrimaryDone env.alphaStderrDone ≤ c) ∧
    (∀ c ∈ env.cancelAt,
        c < copyChannelsDoneAt env.alphaPrimaryDone env.alphaStderrDone →
          (bicopy env).2 = some env.ctxErr) := by
  obtain ⟨ap, as, bp, bs, cat, ce⟩ := env
  refine ⟨rfl, ?_, ?_, ?_⟩
  · cases cat with
    | none => simp [bicopy]
    | some c =>
      by_cases h : copyChannelsDoneAt ap as ≤ c <;>
        simp [bicopy, h, Nat.min_def]
  · cases cat with
    | none => simp [bicopy]
    | some c =>
      by_cases h : copyChannelsDoneAt ap as ≤ c <;>
        simp [bicopy, h]
  · intro c hc hlt
    cases cat with
    | none => simp at hc
    | some d =>
      simp only [Option.mem_def, Option.some.injEq] at hc
      subst hc
      simp [bicopy, Nat.not_le.mpr hlt]

/-- Witness for C4 at a concrete environment: α→β copier done at 10,
cancellation at 5, so cancellation wins and the context error is returned. -/
theorem c4_bicopy_first_event_witness :
    (bicopy ⟨10, 4, 999, 999, some 5, "context canceled"⟩).2
      = some "context canceled" :=
  (c4_bicopy_first_event ⟨10, 4, 999, 999, some 5, "context canceled"⟩ 0 0).2.2.2
    5 rfl (by decide)

/-- Externally visible actions of one `copyChannels w r` call: chunks written
to the destination's primary stream, chunks written to its stderr stream, and
the final `w.CloseWrite()`. -/
inductive CopyEvent where
  | write (chunk : List Nat)
  | writeStderr (chunk : List Nat)
  | closeWrite
deriving DecidableEq

/-- Interleaving of the two concurrent copy streams inside `copyChannels`:
the scheduler `sched` decides, while both streams still have events pending,
which one's next event happens; each stream's own order is preserved. -/
def interleave : List Bool → List CopyEvent → List CopyEvent → List CopyEvent
  | _, [], ys => ys
  | _, x :: xs, [] => x :: xs
  | [], x :: xs, y :: ys => x :: xs ++ y :: ys
  | true :: s, x :: xs, y :: ys => x :: interleave s xs (y :: ys)
  | false :: s, x :: xs, y :: ys => y :: interleave s (x :: xs) ys

/-- Embedding of `copyChannels` (ssh_test.go sshproxy part, `copyChannels`):
the primary `io.Copy(w, r)` goroutine writes the source's primary chunks in
order, the stderr `io.Copy(w.Stderr(), r.Stderr())` writes the stderr chunks
in order, the two proceed concurrently (under `sched`), and the deferred
`w.CloseWrite()` runs only after both have returned (`<-copyDone`). -/
def copyChannels (primaryChunks stderrChunks : List (List Nat))
    (sched : List Bool) : List CopyEvent :=
  interleave sched (primaryChunks.map CopyEvent.write)
      (stderrChunks.map CopyEvent.writeStderr)
    ++ [CopyEvent.closeWrite]

/-- Primary-stream payload of a copy event, if any. -/
def writeChunk : CopyEvent → Option (List Nat)
  | CopyEvent.write c => some c
  | _ => none

theorem interleave_mem {e : CopyEvent} :
    ∀ (sched : List Bool) (xs ys : List CopyEvent),
      e ∈ interleave sched xs ys → e ∈ xs ∨ e ∈ ys := by
  intro sched
  induction sched with
  | nil =>
    intro xs ys h
    cases xs with
    | nil => exact Or.inr (by simpa [interleave] using h)
    | cons x xs =>
      cases ys with
      | nil => exact Or.inl (by simpa [interleave] using h)
      | cons y ys =>
        simp only [interleave, List.mem_cons, List.mem_append] at h ⊢
        tauto
  | cons b sched ih =>
    intro xs ys h
    cases xs with
    | nil => exact Or.inr (by simpa [interleave] using h)
    | cons x xs =>
      cases ys with
      | nil => exact Or.inl (by simpa [interleave] using h)
      | cons y ys =>
        cases b with
        | true =>
          simp only [interleave, List.mem_cons] at h ⊢
          rcases h with h | h
          · tauto
          · rcases ih xs (y :: ys) h with h | h
            · tauto
            · simp only [List.mem_cons] at h
              tauto
        | false =>
          simp only [interleave, List.mem_cons] at h ⊢
          rcases h with h | h
          · tauto
          · rcases ih (x :: xs) ys h with h | h
            · simp only [List.mem_cons] at h
              tauto
            · tauto

theorem filterMap_writeChunk_map_write (p : List (List Nat)) :
    (p.map CopyEvent.write).filterMap writeChunk = p := by
  induction p with
  | nil => rfl
  | cons c p ih => simp [writeChunk, ih]

theorem filterMap_writeChunk_map_writeStderr (s : List (List Nat)) :
    (s.map CopyEvent.writeStderr).filterMap writeChunk = [] := by
  induction s with
  | nil => rfl
  | cons c s ih => simp [writeChunk, ih]

theorem interleave_filterMap_write :
    ∀ (sched : List Bool) (p s : List (List Nat)),
      (interleave sched (p.map CopyEvent.write)
          (s.map CopyEvent.writeStderr)).filterMap writeChunk = p := by
  intro sched
  induction sched with
  | nil =>
    intro p s
    cases p with
    | nil => simpa [interleave] using filterMap_writeChunk_map_writeStderr s
    | cons c p =>
      cases s with
      | nil =>
        have h1 := filterMap_writeChunk_map_write (c :: p)
        simp only [List.map] at h1
        simpa [interleave] using h1
      | cons d s =>
        have h1 := filterMap_writeChunk_map_write p
        have h2 := filterMap_writeChunk_map_writeStderr s
        simp only [interleave, List.map, List.filterMap_cons, List.filterMap_append,
          writeChunk, h1, h2]
        simp
  | cons b sched ih =>
    intro p s
    cases p with
    | nil => simpa [interleave] using filterMap_writeChunk_map_writeStderr s
    | cons c p =>
      cases s with
      | nil =>
        have h1 := filterMap_writeChunk_map_write (c :: p)
        simp only [List.map] at h1
        simpa [interleave] using h1
      | cons d s =>
        cases b with
        | true =>
          have h1 := ih p (d :: s)
          simp only [List.map] at h1
          simp [interleave, List.filterMap_cons, writeChunk, h1]
        | false =>
          have h1 := ih (c :: p) s
          simp only [List.map] at h1
          simp [interleave, List.filterMap_cons, writeChunk, h1]

/-- C5: in every schedule, `copyChannels` performs the half-close
(`CloseWrite`) exactly once, strictly after every write, and by then it has
written to the destination's primary stream exactly the chunks read from the
source before EOF, in order — so all bytes precede the half-close. -/
theorem c5_half_close_after_writes (p s : List (List Nat)) (sched : List Bool) :
    (copyChannels p s sched).getLast? = some CopyEvent.closeWrite ∧
    CopyEvent.closeWrite ∉ (copyChannels p s sched).dropLast ∧
    (copyChannels p s sched).filterMap writeChunk = p ∧
    ((copyChannels p s sched).filterMap writeChunk).flatten = p.flatten := by
  refine ⟨?_, ?_, ?_, ?_⟩
  · simp [copyChannels]
  · rw [copyChannels, List.dropLast_concat]
    intro hmem
    rcases interleave_mem sched _ _ hmem with h | h <;> simp at h
  · rw [copyChannels, List.filterMap_append]
    simp [writeChunk, interleave_filterMap_write]
  · rw [copyChannels, List.filterMap_append]
    simp [writeChunk, interleave_filterMap_write]

/-! ## Serve (connection forwarder) -/

/-- Externally visible phases `Serve` goes through: the TCP dial to the
target, the client-side SSH handshake (`ssh.NewClientConn`), and the final
select on `{ctx.Done(), shutdownErr}`. -/
inductive ServeEvent where
  | dial (target : String)
  | clientHandshake
  | selectWait
deriving DecidableEq

/-- Environment for `Serve`: outcome of the TCP dial, outcome of
`ssh.NewClientConn`, the value and instant of `serverConn.Conn.Wait()`, the
instant of context cancellation (`none` = never), and `ctx.Err()`'s string. -/
structure ServeEnv where
  target : String
  dialErr : Option String
  clientConnErr : Option String
  waitOutcome : Option String
  waitDoneAt : Nat
  cancelAt : Option Nat
  ctxErr : String
deriving DecidableEq

/-- Embedding of `ReverseProxy.Serve` (ssh_test.go sshproxy part, `Serve`):
dials the target (wrapping a failure as `dial reverse proxy target: <cause>`),
performs the client handshake (wrapping a failure as
`new ssh client conn: <cause>`), spawns the four relay loops and the
`Conn.Wait()` watcher, then selects on `{ctx.Done(), shutdownErr}`. Result:
`((return instant, returned error), phase trace)`; a simultaneous arrival is
resolved in favour of the wait outcome, and the instant of an early error
return is reported as 0. -/
def serve (env : ServeEnv) : (Nat × Option String) × List ServeEvent :=
  match env.dialErr with
  | some e => ((0, some ("dial reverse proxy target: " ++ e)), [ServeEvent.dial env.target])
  | none =>
    match env.clientConnErr with
    | some e => ((0, some ("new ssh client conn: " ++ e)),
        [ServeEvent.dial env.target, ServeEvent.clientHandshake])
    | none =>
      let evs := [ServeEvent.dial env.target, ServeEvent.clientHandshake,
        ServeEvent.selectWait]
      match env.cancelAt with
      | none => ((env.waitDoneAt, env.waitOutcome), evs)
      | some c =>
        if env.waitDoneAt ≤ c then ((env.waitDoneAt, env.waitOutcome), evs)
        else ((c, some env.ctxErr), evs)

/-- C6: once the dial and the client handshake succeed, `Serve` returns at
the first of {connection wait completes, context cancelled}: it returns the
wait's outcome verbatim when the wait wins, and `ctx.Err()` verbatim when
cancellation comes strictly first. -/
theorem c6_serve_first_event (env : ServeEnv)
    (hd : env.dialErr = none) (hc : env.clientConnErr = none) :
    (serve env).1.1
      = (match env.cancelAt with
         | none => env.waitDoneAt
         | some c => min env.waitDoneAt c) ∧
    ((∀ c ∈ env.cancelAt, env.waitDoneAt ≤ c) →
        (serve env).1.2 = env.waitOutcome) ∧
    (∀ c ∈ env.cancelAt, c < env.waitDoneAt → (serve env).1.2 = some env.ctxErr) := by
  obtain ⟨t, de, ce, w, wt, cat, cerr⟩ := env
  simp only at hd hc
  subst hd
  subst hc
  refine ⟨?_, ?_, ?_⟩
  · cases cat with
    | none => simp [serve]
    | some c =>
      by_cases h : wt ≤ c <;> simp [serve, h, Nat.min_def]
  · intro h
    cases cat with
    | none => simp [serve]
    | some c =>
      have hc := h c rfl
      simp [serve, hc]
  · intro c hcat hlt
    cases cat with
    | none => simp at hcat
    | some d =>
      simp only [Option.mem_def, Option.some.injEq] at hcat
      subst hcat
      simp [serve, Nat.not_le.mpr hlt]

/-- Witness for C6 at a concrete environment: handshakes succeed, the wait
completes at 3 before the cancellation at 7, and its outcome is returned. -/
theorem c6_serve_first_event_witness :
    (serve ⟨"target:22", none, none, some "EOF", 3, some 7, "context canceled"⟩).1.2
      = some "EOF" :=
  (c6_serve_first_event ⟨"target:22", none, none, some "EOF", 3, some 7,
      "context canceled"⟩ rfl rfl).2.1 (by decide)

/-- C8: when the TCP dial fails, `Serve` returns an error whose message is
`dial reverse proxy target: ` followed by the dial error's message, and no
handshake is attempted (the trace stops at the dial). -/
theorem c8_dial_failure (env : ServeEnv) (e : String) (hd : env.dialErr = some e) :
    (serve env).1.2 = some ("dial reverse proxy target: " ++ e) ∧
    (∃ rest, (serve env).1.2 = some ("dial reverse proxy target: " ++ rest)) ∧
    (serve env).2 = [ServeEvent.dial env.target] ∧
    ServeEvent.clientHandshake ∉ (serve env).2 := by
  obtain ⟨t, de, ce, w, wt, cat, cerr⟩ := env
  simp only at hd
  subst hd
  exact ⟨rfl, ⟨e, rfl⟩, rfl, by simp [serve]⟩

/-- Witness for C8 at the test's concrete input: target
`/tmp/sshproxy-null.sock`, whose dial fails with Go's missing-port error. -/
theorem c8_dial_failure_witness :
    (serve ⟨"/tmp/sshproxy-null.sock",
        some "dial tcp: address /tmp/sshproxy-null.sock: missing port in address",
        none, none, 0, none, "context canceled"⟩).1.2
      = some ("dial reverse proxy target: "
          ++ "dial tcp: address /tmp/sshproxy-null.sock: missing port in address") :=
  (c8_dial_failure ⟨"/tmp/sshproxy-null.sock",
      some "dial tcp: address /tmp/sshproxy-null.sock: missing port in address",
      none, none, 0, none, "context canceled"⟩
    "dial tcp: address /tmp/sshproxy-null.sock: missing port in address" rfl).1

/-! ## ServeProxy accept loop and handle -/

/-- One outcome of `listener.Accept()`: either a connection (identified by a
`Nat`), or a non-nil error, flagged by whether it matches `net.ErrClosed`
(in the error case the returned connection is Go's nil). -/
inductive AcceptOutcome where
  | ok (c : Nat)
  | fail (isClosed : Bool) (msg : String)
deriving DecidableEq

/-- Embedding of the `ServeProxy` accept loop (server.go): return `err` when
it is non-nil and matches `net.ErrClosed`; otherwise spawn `handle` on the
accepted connection — which is Go's nil (`none`) when `Accept` errored — and
loop. Runs over a finite prefix of `Accept` outcomes; result: the returned
error (as its `isClosed` flag and message) if the loop returned within the
prefix, and the connections handed to spawned `handle` goroutines, in order. -/
def serveProxyLoop : List AcceptOutcome → Option (Bool × String) × List (Option Nat)
  | [] => (none, [])
  | AcceptOutcome.ok c :: rest =>
      let r := serveProxyLoop rest
      (r.1, some c :: r.2)
  | AcceptOutcome.fail true msg :: rest => (some (true, msg), [])
  | AcceptOutcome.fail false msg :: rest =>
      let r := serveProxyLoop rest
      (r.1, none :: r.2)

/-- Embedding of `handle` (server.go): defers `conn.Close()` on its connection
argument unconditionally, then runs the server handshake, the route, and
`Serve`, returning the first error. Result: the returned error and the list of
connections its deferred close runs on — `[conn]` on every path, also when
`conn` is Go's nil (`none`). -/
def handle (conn : Option Nat) (handshakeErr routeErr serveRes : Option String) :
    Option String × List (Option Nat) :=
  let ret :=
    match handshakeErr with
    | some e => some e
    | none =>
      match routeErr with
      | some e => some e
      | none => serveRes
  (ret, [conn])

/-- Whether an `Accept` outcome is a `net.ErrClosed`-matching error. -/
def isClosedFail : AcceptOutcome → Bool
  | AcceptOutcome.fail true _ => true
  | _ => false

/-- Connection value that an outcome's loop iteration passes to `handle`:
the accepted connection, or Go's nil on an `Accept` error. -/
def connOf : AcceptOutcome → Option Nat
  | AcceptOutcome.ok c => some c
  | AcceptOutcome.fail _ _ => none

/-- C10: over any run whose outcomes before a `net.ErrClosed` failure are
connections or non-`ErrClosed` errors, the loop spawns `handle` once per such
outcome — on the nil connection for every non-`ErrClosed` error, so the
handler's deferred `conn.Close()` runs on nil — never returning or skipping
there; it returns exactly at the `ErrClosed` failure with that error, and
without one it never returns. -/
theorem c10_accept_loop (pre rest : List AcceptOutcome) (msg : String)
    (handshakeErr routeErr serveRes : Option String)
    (hpre : ∀ o ∈ pre, isClosedFail o = false) :
    (serveProxyLoop pre).1 = none ∧
    (serveProxyLoop pre).2 = pre.map connOf ∧
    serveProxyLoop (pre ++ AcceptOutcome.fail true msg :: rest)
      = (some (true, msg), pre.map connOf) ∧
    (handle none handshakeErr routeErr serveRes).2 = [none] := by
  refine ⟨?_, ?_, ?_, rfl⟩
  · induction pre with
    | nil => rfl
    | cons o pre ih =>
      have ho := hpre o (List.mem_cons_self o pre)
      have ih := ih (fun x hx => hpre x (List.mem_cons_of_mem o hx))
      cases o with
      | ok c => simpa [serveProxyLoop] using ih
      | fail b m =>
        cases b with
        | false => simpa [serveProxyLoop] using ih
        | true => simp [isClosedFail] at ho
  · induction pre with
    | nil => rfl
    | cons o pre ih =>
      have ho := hpre o (List.mem_cons_self o pre)
      have ih := ih (fun x hx => hpre x (List.mem_cons_of_mem o hx))
      cases o with
      | ok c => simp [serveProxyLoop, connOf, ih]
      | fail b m =>
        cases b with
        | false => simp [serveProxyLoop, connOf, ih]
        | true => simp [isClosedFail] at ho
  · induction pre with
    | nil => rfl
    | cons o pre ih =>
      have ho := hpre o (List.mem_cons_self o pre)
      have ih := ih (fun x hx => hpre x (List.mem_cons_of_mem o hx))
      cases o with
      | ok c => simp [serveProxyLoop, connOf, ih]
      | fail b m =>
        cases b with
        | false => simp [serveProxyLoop, connOf, ih]
        | true => simp [isClosedFail] at ho

/-- Witness for C10 at a concrete run: one accepted connection, then a
non-`ErrClosed` accept error (spawning `handle` on the nil connection), then
the `ErrClosed` failure that terminates the loop with that error. -/
theorem c10_accept_loop_witness :
    (serveProxyLoop [AcceptOutcome.ok 1, AcceptOutcome.fail false "reset"]).1 = none ∧
    (serveProxyLoop [AcceptOutcome.ok 1, AcceptOutcome.fail false "reset"]).2
      = [some 1, none] ∧
    serveProxyLoop ([AcceptOutcome.ok 1, AcceptOutcome.fail false "reset"]
        ++ AcceptOutcome.fail true "use of closed network connection" :: [])
      = (some (true, "use of closed network connection"), [some 1, none]) ∧
    (handle none none none none).2 = [none] :=
  c10_accept_loop [AcceptOutcome.ok 1, AcceptOutcome.fail false "reset"] []
    "use of closed network connection" none none none (by decide)

end SSHProxy
